import Mathlib

/-!
Verification development for the Transformice asset downloader
(`tfm-images-shop-parser-byAmr.py`).

The script is shallowly embedded: the filesystem is an explicit state
(a list of created directories plus an association list of files), the
HTTP layer is an oracle value describing what the network returned for a
request, and Python exceptions are modelled with `Except` over an explicit
exception type.  All definitions are translated from the source; machine
strings are Lean `String`s manipulated at the `List Char` level, and file
contents are byte lists (`List Nat`).
-/

set_option autoImplicit false

namespace TfmParser

/-! ## String utilities modelling the Python standard library pieces used
by the script (`urllib.parse.urlparse`, `urllib.parse.unquote`,
`os.path.join`, `os.path.dirname`, `str.startswith`, `str.lstrip`). -/

/-- Value of a hexadecimal digit character (0 for non-hex input; only
applied under `isHexDigitChar`). -/
def hexVal (c : Char) : Nat :=
  if c.isDigit then c.toNat - 48
  else if 'a' ≤ c ∧ c ≤ 'f' then c.toNat - 87
  else if 'A' ≤ c ∧ c ≤ 'F' then c.toNat - 55
  else 0

/-- Hexadecimal digit test, as accepted by `urllib.parse.unquote`. -/
def isHexDigitChar (c : Char) : Bool :=
  c.isDigit || decide ('a' ≤ c ∧ c ≤ 'f') || decide ('A' ≤ c ∧ c ≤ 'F')

/-- Percent-decoding on character lists, modelling `urllib.parse.unquote`
at the level of single-byte (ASCII) escapes: a valid `%XY` escape becomes
the character with code `16*X+Y`; an invalid escape is left literal, with
scanning resuming after the `%`, as CPython does. -/
def unquoteChars : List Char → List Char
  | '%' :: c1 :: c2 :: rest =>
    if isHexDigitChar c1 && isHexDigitChar c2 then
      Char.ofNat (16 * hexVal c1 + hexVal c2) :: unquoteChars rest
    else '%' :: unquoteChars (c1 :: c2 :: rest)
  | c :: rest => c :: unquoteChars rest
  | [] => []

/-- Python `s.startswith(p)`. -/
def strStarts (p s : String) : Bool :=
  p.data.isPrefixOf s.data

/-- Python `s.endswith(p)`. -/
def strEnds (p s : String) : Bool :=
  p.data.isSuffixOf s.data

/-- Characters allowed in a URL scheme by `urllib.parse`. -/
def isSchemeChar (c : Char) : Bool :=
  c.isAlphanum || c == '+' || c == '-' || c == '.'

/-- Drop the `scheme:` part of a URL if present, as `urlparse` does when
splitting off the scheme. -/
def afterScheme (cs : List Char) : List Char :=
  let pre := cs.takeWhile isSchemeChar
  match cs.drop pre.length with
  | ':' :: rest => if pre.isEmpty then cs else rest
  | _ => cs

/-- Drop the `//netloc` part of a URL if present: after `//`, the network
location extends to the first `/`, `?` or `#`. -/
def dropNetloc (cs : List Char) : List Char :=
  match cs with
  | '/' :: '/' :: rest => rest.dropWhile (fun c => !(c == '/' || c == '?' || c == '#'))
  | _ => cs

/-- The `.path` component of `urllib.parse.urlparse(url)`: what remains
after the scheme and netloc, truncated at the query or fragment
delimiter. -/
def urlPathChars (url : String) : List Char :=
  (dropNetloc (afterScheme url.data)).takeWhile (fun c => !(c == '?' || c == '#'))

/-- Lines 25-31 of the script:
`path_without_query = unquote(parsed_url.path.split('?')[0])` followed by
removal of one leading `/` if present. -/
def strippedPath (url : String) : List Char :=
  let p := unquoteChars ((urlPathChars url).takeWhile (fun c => !(c == '?')))
  match p with
  | '/' :: rest => rest
  | _ => p

/-- String form of `strippedPath`. -/
def strippedPathStr (url : String) : String :=
  ⟨strippedPath url⟩

/-- POSIX `os.path.join` on two components: an absolute second component
replaces the first; otherwise a separator is inserted unless the first
component is empty or already ends in one. -/
def osPathJoin (a b : String) : String :=
  if strStarts "/" b then b
  else if a = "" || strEnds "/" a then a ++ b
  else a ++ "/" ++ b

/-- POSIX `os.path.dirname` on character lists: everything up to the last
`/`, with trailing separators stripped unless the result is all
separators. -/
def dirnameChars (cs : List Char) : List Char :=
  let head := (cs.reverse.dropWhile (fun c => !(c == '/'))).reverse
  if head.isEmpty || head.all (fun c => c == '/') then head
  else (head.reverse.dropWhile (fun c => c == '/')).reverse

/-- POSIX `os.path.dirname`. -/
def dirname (p : String) : String :=
  ⟨dirnameChars p.data⟩

/-- Line 37 of the script: the Path Mapper.
`local_filepath = os.path.join(base_folder, path_without_query)`. -/
def mapLocalPath (base url : String) : String :=
  osPathJoin base (strippedPathStr url)

/-- Line 9 of the script: the fixed output root. -/
def BASE_DOWNLOAD_FOLDER : String := "TFM_DOWNLOADED_ASSETS"

/-! ## Filesystem state -/

/-- A stored file: its byte content, and whether an attempt to read it
back raises an exception (modelling the `except` branch at line 56). -/
structure File where
  content : List Nat
  readFails : Bool
deriving DecidableEq

/-- The local filesystem as seen by the script: the set of directories
that exist, and an association list of files (newest entry first). -/
structure FSState where
  dirs : List String
  files : List (String × File)
deriving DecidableEq

/-- First-match lookup in the file association list. -/
def lookupFile : List (String × File) → String → Option File
  | [], _ => none
  | (q, f) :: rest, p => if q = p then some f else lookupFile rest p

/-- Writing a file: the new (readable) entry shadows any older one. -/
def writeFile (files : List (String × File)) (p : String) (c : List Nat) :
    List (String × File) :=
  (p, ⟨c, false⟩) :: files

/-! ## Outcomes, log lines and exceptions -/

/-- Classification of one fetch-and-persist attempt (the spec's
`FetchOutcome`); the script reports these through its print statements. -/
inductive FetchOutcome where
  | saved
  | skipped
  | overwritten
  | notFound
  | httpError (status : Nat)
  | networkError
  | filesystemError
  | unexpectedError
deriving DecidableEq

/-- One print statement of the script, abstracted. -/
inductive LogEvent where
  | infoProcessing (url : String)
  | creatingDir (d : String)
  | skipExisting (p : String)
  | warnDiffers (p : String)
  | warnReadFail (p : String)
  | savedFile (p : String)
  | err404 (url : String)
  | errStatus (url : String) (status : Nat)
  | netError (url : String)
  | osErrorLog (url : String)
  | unexpected (url : String)
  | warnNonString
  | discBadShape
  | discDecodeFail
  | discStatusFail (status : Nat)
  | discConnFail
deriving DecidableEq

/-- Python exception classes distinguished by the handlers at
lines 68-75. -/
inductive PyExc where
  | clientError
  | osError
  | other
deriving DecidableEq

/-! ## Content Store (lines 39-61) -/

/-- Lines 40-43: `local_dir = os.path.dirname(...)`, then
`os.makedirs(local_dir, exist_ok=True)` when the directory does not
exist.  `os.makedirs("")` raises `FileNotFoundError` (an `OSError`). -/
def ensureDir (fs : FSState) (d : String) : Except PyExc (FSState × List LogEvent) :=
  if fs.dirs.contains d then Except.ok (fs, [])
  else if d = "" then Except.error PyExc.osError
  else Except.ok ({ fs with dirs := d :: fs.dirs }, [LogEvent.creatingDir d])

/-- Lines 39-61: create the parent directory, then compare with an
existing file (an unreadable existing file is treated as differing, with
a warning), skip on identical bytes, and otherwise write the new
content.  Raised `OSError`s propagate to the caller. -/
def persist (fs : FSState) (localPath : String) (content : List Nat) :
    Except PyExc (FetchOutcome × FSState × List LogEvent) :=
  match ensureDir fs (dirname localPath) with
  | Except.error e => Except.error e
  | Except.ok (fs1, log1) =>
    match lookupFile fs1.files localPath with
    | some f =>
      if f.readFails then
        Except.ok (FetchOutcome.overwritten,
          { fs1 with files := writeFile fs1.files localPath content },
          log1 ++ [LogEvent.warnReadFail localPath, LogEvent.savedFile localPath])
      else if f.content = content then
        Except.ok (FetchOutcome.skipped, fs1, log1 ++ [LogEvent.skipExisting localPath])
      else
        Except.ok (FetchOutcome.overwritten,
          { fs1 with files := writeFile fs1.files localPath content },
          log1 ++ [LogEvent.warnDiffers localPath, LogEvent.savedFile localPath])
    | none =>
      Except.ok (FetchOutcome.saved,
        { fs1 with files := writeFile fs1.files localPath content },
        log1 ++ [LogEvent.savedFile localPath])

/-! ## Fetch Worker (lines 12-75) -/

/-- What the network did for one `session.get(url)`: a response with a
status and (for 200) a fully read body, a connection-level failure, or a
failure while reading the body of a 200 response. -/
inductive HttpResult where
  | response (status : Nat) (body : List Nat)
  | bodyNetError
  | connError
deriving DecidableEq

/-- Body of the `try` block of `download_item` (lines 19-66): an
`aiohttp.ClientError` from the request or the body read surfaces as an
exception; a 200 response is persisted through the Path Mapper and the
Content Store; 404 and other statuses are reported without touching the
filesystem. -/
def downloadItemRaw (r : HttpResult) (url base : String) (fs : FSState) :
    Except PyExc (FetchOutcome × FSState × List LogEvent) :=
  match r with
  | HttpResult.connError => Except.error PyExc.clientError
  | HttpResult.bodyNetError => Except.error PyExc.clientError
  | HttpResult.response status body =>
    if status = 200 then
      persist fs (mapLocalPath base url) body
    else if status = 404 then
      Except.ok (FetchOutcome.notFound, fs, [LogEvent.err404 url])
    else
      Except.ok (FetchOutcome.httpError status, fs, [LogEvent.errStatus url status])

/-- Outcome reported by the exception handlers at lines 68-75. -/
def excOutcome : PyExc → FetchOutcome
  | PyExc.clientError => FetchOutcome.networkError
  | PyExc.osError => FetchOutcome.filesystemError
  | PyExc.other => FetchOutcome.unexpectedError

/-- Log line printed by the exception handlers at lines 68-75. -/
def excLog : PyExc → String → LogEvent
  | PyExc.clientError, u => LogEvent.netError u
  | PyExc.osError, u => LogEvent.osErrorLog u
  | PyExc.other, u => LogEvent.unexpected u

/-- `download_item` (lines 12-75): the `try` body with every exception
class caught and converted to a logged outcome.  The only raise point in
the model precedes any filesystem mutation, so the pre-state is returned
on an exception. -/
def download_item (r : HttpResult) (url base : String) (fs : FSState) :
    FetchOutcome × FSState × List LogEvent :=
  match downloadItemRaw r url base fs with
  | Except.ok (o, fs', log) => (o, fs', LogEvent.infoProcessing url :: log)
  | Except.error e => (excOutcome e, fs, [LogEvent.infoProcessing url, excLog e url])

/-- Lines 159-162: `asyncio.gather` over one `download_item` task per
locator.  The cooperative interleaving is modelled by sequential
execution threading the filesystem state; each item yields exactly one
outcome. -/
def runBatch (items : List (String × HttpResult)) (base : String) (fs : FSState) :
    FSState × List (FetchOutcome × List LogEvent) :=
  match items with
  | [] => (fs, [])
  | item :: rest =>
    let r := download_item item.2 item.1 base fs
    let tail := runBatch rest base r.2.1
    (tail.1, (r.1, r.2.2) :: tail.2)

/-! ## Discovery Client (lines 94-138) -/

/-- JSON values as produced by `json.loads`. -/
inductive JVal where
  | obj (kvs : List (String × JVal))
  | arr (elems : List JVal)
  | str (s : String)
  | num (n : Int)
  | boolean (b : Bool)
  | null

/-- `isinstance(x, str)` projection on a JSON value. -/
def jvalStr : JVal → Option String
  | JVal.str s => some s
  | _ => none

/-- Python `p.lstrip("/")`: remove all leading slashes. -/
def lstripSlash (p : String) : String :=
  ⟨p.data.dropWhile (fun c => c == '/')⟩

/-- Lines 122-125: qualify a discovered entry against the fixed origin
unless it is already an absolute URL. -/
def qualify (p : String) : String :=
  if strStarts "http://" p || strStarts "https://" p then p
  else "https://www.transformice.com/" ++ lstripSlash p

/-- Lines 118-126: walk the discovered entries, skipping non-strings with
a warning and qualifying the rest, in order. -/
def processEntries : List JVal → List String × List LogEvent
  | [] => ([], [])
  | e :: rest =>
    let t := processEntries rest
    match e with
    | JVal.str s => (qualify s :: t.1, t.2)
    | _ => (t.1, LogEvent.warnNonString :: t.2)

/-- What the discovery endpoint did for one segment: a response carrying
a status and the result of `json.loads` on its body (`none` when
decoding raised `JSONDecodeError`), or a connection failure. -/
inductive DiscResp where
  | conn (status : Nat) (body : Option JVal)
  | connFail

/-- Lines 101-134: one segment of the discovery loop.  Non-200 statuses,
decode failures, unexpected JSON shapes and connection errors all yield
an empty contribution plus an error log line; an object contributes its
values and an array contributes its elements. -/
def discoverSegment (r : DiscResp) : List String × List LogEvent :=
  match r with
  | DiscResp.connFail => ([], [LogEvent.discConnFail])
  | DiscResp.conn status body =>
    if status = 200 then
      match body with
      | none => ([], [LogEvent.discDecodeFail])
      | some (JVal.obj kvs) => processEntries (kvs.map Prod.snd)
      | some (JVal.arr es) => processEntries es
      | some _ => ([], [LogEvent.discBadShape])
    else ([], [LogEvent.discStatusFail status])

/-- A discovery response from which the script extracts no entries:
connection failure, non-200 status, decode failure, or a JSON shape that
is neither an object nor an array. -/
def invalidDisc : DiscResp → Bool
  | DiscResp.connFail => true
  | DiscResp.conn status body =>
    (status != 200) ||
      (match body with
       | some (JVal.obj _) => false
       | some (JVal.arr _) => false
       | _ => true)

/-- The discovery-side error log lines. -/
def isDiscErrorLog : LogEvent → Bool
  | LogEvent.discBadShape => true
  | LogEvent.discDecodeFail => true
  | LogEvent.discStatusFail _ => true
  | LogEvent.discConnFail => true
  | _ => false

/-! ## Batch Orchestrator (lines 94-157) -/

/-- Line 96: the segments queried at the discovery endpoint. -/
def segments : List String :=
  ["images", "ar", "godspaw", "share", "woot", "wp-admin", "wp-content", "wp-includes"]

/-- Lines 142-144: the statically configured SWF locators. -/
def bibliothequesUrls : List String :=
  ["x_fourrures", "x_fourrures2", "x_fourrures3", "x_fourrures4",
   "x_meli_costumes", "x_pictos_editeur"].map
    (fun b => "http://transformice.com/images/x_bibliotheques/" ++ b ++ ".swf")

/-- Lines 148-151: the statically configured language-file locators. -/
def languesUrls : List String :=
  ["en", "fr", "br", "es", "cn", "tr", "vk", "pl", "hu", "nl", "ro", "id",
   "de", "e2", "ar", "ph", "lt", "jp", "ch", "fi", "cz", "sk", "hr", "bu",
   "lv", "he", "it", "et", "az", "pt"].map
    (fun l => "http://transformice.com/langues/tfz_" ++ l)

/-- Lines 155-157: the statically configured music locators. -/
def musiquesUrls : List String :=
  (List.range 4).map
    (fun n => "http://transformice.com/images/musiques/tfm_" ++ toString n ++ ".mp3")

/-- All statically configured locators, in task-submission order. -/
def staticUrls : List String :=
  bibliothequesUrls ++ languesUrls ++ musiquesUrls

/-- Lines 94-157: the full ordered batch of locators for one run, given
what the discovery endpoint answered for each segment: the discovered
entries in segment order, followed by the static lists. -/
def buildBatch (oracle : String → DiscResp) : List String :=
  (segments.map fun s => (discoverSegment (oracle s)).1).flatten ++ staticUrls

/-- A locator is absolute when it carries an explicit `http` or `https`
scheme, which is the test the script itself applies at line 122. -/
def IsAbsoluteUrl (u : String) : Prop :=
  strStarts "http://" u = true ∨ strStarts "https://" u = true

/-! ## Path resolution (for reasoning about escapes from the root) -/

/-- Split a character list on `/`. -/
def splitSlash : List Char → List (List Char)
  | [] => [[]]
  | c :: rest =>
    if c = '/' then [] :: splitSlash rest
    else
      match splitSlash rest with
      | s :: ss => (c :: s) :: ss
      | [] => [[c]]

/-- The `..` path segment. -/
def dotdot : List Char := ['.', '.']

/-- Segments that affect resolution (empty and `.` segments do not). -/
def segKeep (s : List Char) : Bool :=
  !(s == []) && !(s == ['.'])

/-- One step of lexical path resolution: `..` discards the last segment,
anything else is appended. -/
def resolveStep (acc : List (List Char)) (s : List Char) : List (List Char) :=
  if s = dotdot then acc.dropLast else acc ++ [s]

/-- Lexical resolution of a path into its effective segment list. -/
def resolveSegs (p : String) : List (List Char) :=
  ((splitSlash p.data).filter segKeep).foldl resolveStep []

/-- A path stays under `root` when it is relative and its resolution
starts with the `root` segment. -/
def underRoot (root p : String) : Bool :=
  !(strStarts "/" p) && ((resolveSegs p).head? == some root.data)

/-! ## Helper lemmas -/

theorem lookupFile_write_self (files : List (String × File)) (p : String) (c : List Nat) :
    lookupFile (writeFile files p c) p = some ⟨c, false⟩ := by
  simp [writeFile, lookupFile]

theorem runBatch_length (items : List (String × HttpResult)) (base : String) (fs : FSState) :
    (runBatch items base fs).2.length = items.length := by
  induction items generalizing fs with
  | nil => rfl
  | cons item rest ih => simp [runBatch, ih]

theorem runBatch_connError (items : List (String × HttpResult)) (base : String) :
    ∀ (i : Nat) (fs : FSState),
      (items[i]?).map Prod.snd = some HttpResult.connError →
      ((runBatch items base fs).2[i]?).map Prod.fst = some FetchOutcome.networkError := by
  induction items with
  | nil => intro i fs h; simp at h
  | cons item rest ih =>
    intro i fs h
    cases i with
    | zero =>
      have h2 : item.2 = HttpResult.connError := by simpa using h
      simp [runBatch, download_item, downloadItemRaw, excOutcome, h2]
    | succ j =>
      simp only [List.getElem?_cons_succ] at h
      simpa [runBatch] using ih j _ h

/-! ## Claims about the Content Store -/

/-- Claim C1: persisting the same bytes twice at a `LocalPath` where no
file exists yields `Saved` then `Skipped`; the second call changes
nothing (the same filesystem state is returned), and after both calls
the stored content is exactly the input bytes. -/
theorem persist_twice_saved_then_skipped (fs : FSState) (p : String) (c : List Nat)
    (hfresh : lookupFile fs.files p = none) (hdir : dirname p ≠ "") :
    ∃ fs1 log1 log2,
      persist fs p c = Except.ok (FetchOutcome.saved, fs1, log1) ∧
      persist fs1 p c = Except.ok (FetchOutcome.skipped, fs1, log2) ∧
      lookupFile fs1.files p = some ⟨c, false⟩ := by
  by_cases hd : dirname p ∈ fs.dirs
  · exact ⟨{ fs with files := writeFile fs.files p c }, [LogEvent.savedFile p],
      [LogEvent.skipExisting p],
      by simp [persist, ensureDir, hd, hfresh],
      by simp [persist, ensureDir, hd, lookupFile_write_self],
      lookupFile_write_self fs.files p c⟩
  · exact ⟨⟨dirname p :: fs.dirs, writeFile fs.files p c⟩,
      [LogEvent.creatingDir (dirname p), LogEvent.savedFile p],
      [LogEvent.skipExisting p],
      by simp [persist, ensureDir, hd, hdir, hfresh],
      by simp [persist, ensureDir, lookupFile_write_self],
      lookupFile_write_self fs.files p c⟩

theorem persist_twice_saved_then_skipped_witness :
    ∃ fs1 log1 log2,
      persist ⟨[], []⟩ "TFM_DOWNLOADED_ASSETS/x/y.png" [1, 2]
        = Except.ok (FetchOutcome.saved, fs1, log1) ∧
      persist fs1 "TFM_DOWNLOADED_ASSETS/x/y.png" [1, 2]
        = Except.ok (FetchOutcome.skipped, fs1, log2) ∧
      lookupFile fs1.files "TFM_DOWNLOADED_ASSETS/x/y.png" = some ⟨[1, 2], false⟩ :=
  persist_twice_saved_then_skipped ⟨[], []⟩ "TFM_DOWNLOADED_ASSETS/x/y.png" [1, 2] rfl (by decide)

/-- Claim C2: persisting bytes at a `LocalPath` holding a file whose
content differs — or whose read raises, which is treated as differing
with a warning — yields `Overwritten`, and the stored content afterwards
is the newest bytes. -/
theorem persist_overwrites_on_difference (fs : FSState) (p : String) (c : List Nat) (f : File)
    (hf : lookupFile fs.files p = some f) (hdir : dirname p ≠ "")
    (hdiff : f.readFails = true ∨ f.content ≠ c) :
    ∃ fs' log,
      persist fs p c = Except.ok (FetchOutcome.overwritten, fs', log) ∧
      lookupFile fs'.files p = some ⟨c, false⟩ ∧
      (if f.readFails then LogEvent.warnReadFail p ∈ log else LogEvent.warnDiffers p ∈ log) := by
  by_cases hrf : f.readFails = true
  · by_cases hd : dirname p ∈ fs.dirs
    · exact ⟨{ fs with files := writeFile fs.files p c },
        [LogEvent.warnReadFail p, LogEvent.savedFile p],
        by simp [persist, ensureDir, hd, hf, hrf],
        lookupFile_write_self fs.files p c, by simp [hrf]⟩
    · exact ⟨⟨dirname p :: fs.dirs, writeFile fs.files p c⟩,
        [LogEvent.creatingDir (dirname p), LogEvent.warnReadFail p, LogEvent.savedFile p],
        by simp [persist, ensureDir, hd, hdir, hf, hrf],
        lookupFile_write_self fs.files p c, by simp [hrf]⟩
  · have hne : f.content ≠ c := hdiff.resolve_left hrf
    by_cases hd : dirname p ∈ fs.dirs
    · exact ⟨{ fs with files := writeFile fs.files p c },
        [LogEvent.warnDiffers p, LogEvent.savedFile p],
        by simp [persist, ensureDir, hd, hf, hrf, hne],
        lookupFile_write_self fs.files p c, by simp [hrf]⟩
    · exact ⟨⟨dirname p :: fs.dirs, writeFile fs.files p c⟩,
        [LogEvent.creatingDir (dirname p), LogEvent.warnDiffers p, LogEvent.savedFile p],
        by simp [persist, ensureDir, hd, hdir, hf, hrf, hne],
        lookupFile_write_self fs.files p c, by simp [hrf]⟩

theorem persist_overwrites_on_difference_witness :
    ∃ fs' log,
      persist ⟨["d"], [("d/f.png", ⟨[0], false⟩)]⟩ "d/f.png" [1]
        = Except.ok (FetchOutcome.overwritten, fs', log) ∧
      lookupFile fs'.files "d/f.png" = some ⟨[1], false⟩ ∧
      LogEvent.warnDiffers "d/f.png" ∈ log := by
  simpa using persist_overwrites_on_difference ⟨["d"], [("d/f.png", ⟨[0], false⟩)]⟩
    "d/f.png" [1] ⟨[0], false⟩ rfl (by decide) (Or.inr (by decide))

/-! ## Claims about the Fetch Worker -/

/-- Claim C3: every exception raised inside `download_item`'s body is
caught and converted into a logged outcome; consequently every locator
of a batch produces exactly one outcome (the run completes), and a
locator whose host is unreachable yields `NetworkError` without
affecting whether the others are attempted. -/
theorem batch_isolates_failures (items : List (String × HttpResult)) (base : String)
    (fs : FSState) (i : Nat)
    (hconn : (items[i]?).map Prod.snd = some HttpResult.connError) :
    (runBatch items base fs).2.length = items.length ∧
    ((runBatch items base fs).2[i]?).map Prod.fst = some FetchOutcome.networkError ∧
    (∀ (r : HttpResult) (url b : String) (fs0 : FSState) (e : PyExc),
      downloadItemRaw r url b fs0 = Except.error e →
      download_item r url b fs0
        = (excOutcome e, fs0, [LogEvent.infoProcessing url, excLog e url])) := by
  refine ⟨runBatch_length items base fs, runBatch_connError items base i fs hconn, ?_⟩
  intro r url b fs0 e h
  simp [download_item, h]

theorem batch_isolates_failures_witness :
    (runBatch [("http://a/x", HttpResult.response 404 []),
               ("http://b/y", HttpResult.connError)] "TFM_DOWNLOADED_ASSETS" ⟨[], []⟩).2.length = 2 ∧
    ((runBatch [("http://a/x", HttpResult.response 404 []),
                ("http://b/y", HttpResult.connError)] "TFM_DOWNLOADED_ASSETS" ⟨[], []⟩).2[1]?).map
        Prod.fst = some FetchOutcome.networkError ∧
    (∀ (r : HttpResult) (url b : String) (fs0 : FSState) (e : PyExc),
      downloadItemRaw r url b fs0 = Except.error e →
      download_item r url b fs0
        = (excOutcome e, fs0, [LogEvent.infoProcessing url, excLog e url])) :=
  batch_isolates_failures _ "TFM_DOWNLOADED_ASSETS" ⟨[], []⟩ 1 rfl

/-- Claim C5: a non-200 response leaves the filesystem untouched (no
directory creation, no write) and is classified `NotFound` for 404 and
`HTTPError(status)` otherwise; a 200 response with body `hello` written
to a fresh path produces a file of exactly 5 bytes. -/
theorem non200_leaves_fs_unchanged :
    (∀ (status : Nat) (body : List Nat) (url base : String) (fs : FSState), status ≠ 200 →
      download_item (HttpResult.response status body) url base fs =
        ((if status = 404 then FetchOutcome.notFound else FetchOutcome.httpError status), fs,
         [LogEvent.infoProcessing url,
          if status = 404 then LogEvent.err404 url else LogEvent.errStatus url status])) ∧
    (lookupFile (download_item (HttpResult.response 200 [104, 101, 108, 108, 111])
        "http://transformice.com/x/hello.bin" BASE_DOWNLOAD_FOLDER ⟨[], []⟩).2.1.files
        "TFM_DOWNLOADED_ASSETS/x/hello.bin").map (fun f => f.content.length) = some 5 := by
  constructor
  · intro status body url base fs h200
    by_cases h404 : status = 404
    · simp [download_item, downloadItemRaw, h200, h404]
    · simp [download_item, downloadItemRaw, h200, h404]
  · decide

theorem non200_leaves_fs_unchanged_witness :
    download_item (HttpResult.response 404 []) "http://a/x" "TFM_DOWNLOADED_ASSETS" ⟨[], []⟩
      = (FetchOutcome.notFound, ⟨[], []⟩,
         [LogEvent.infoProcessing "http://a/x", LogEvent.err404 "http://a/x"]) := by
  simpa using non200_leaves_fs_unchanged.1 404 [] "http://a/x" "TFM_DOWNLOADED_ASSETS"
    ⟨[], []⟩ (by decide)

/-- Claim C10: a network failure at the request or while the body is
being read happens before any path handling, so the local store is left
completely unchanged for that locator, which is reported as
`NetworkError`. -/
theorem net_failure_before_body_leaves_fs_unchanged (r : HttpResult) (url base : String)
    (fs : FSState) (h : r = HttpResult.connError ∨ r = HttpResult.bodyNetError) :
    (download_item r url base fs).1 = FetchOutcome.networkError ∧
    (download_item r url base fs).2.1 = fs := by
  rcases h with h | h <;> subst h <;> exact ⟨rfl, rfl⟩

theorem net_failure_before_body_leaves_fs_unchanged_witness :
    (download_item HttpResult.connError "http://a/x" "TFM_DOWNLOADED_ASSETS" ⟨[], []⟩).2.1
      = (⟨[], []⟩ : FSState) :=
  (net_failure_before_body_leaves_fs_unchanged HttpResult.connError "http://a/x"
    "TFM_DOWNLOADED_ASSETS" ⟨[], []⟩ (Or.inl rfl)).2

/-! ## Claims about the Path Mapper -/

/-- Claim C4: the Path Mapper strips the query, percent-decodes, removes
one leading separator and joins onto the root, without filesystem access
and without failing (it is a pure total function of the locator); on the
spec's example `/a/b%20c.png?x=1` it yields `<root>/a/b c.png`, and the
result depends only on the locator's path component. -/
theorem path_mapper_spec :
    mapLocalPath "TFM_DOWNLOADED_ASSETS" "https://www.transformice.com/a/b%20c.png?x=1"
      = "TFM_DOWNLOADED_ASSETS/a/b c.png" ∧
    mapLocalPath "TFM_DOWNLOADED_ASSETS" "http://transformice.com/langues/tfz_en"
      = "TFM_DOWNLOADED_ASSETS/langues/tfz_en" ∧
    (∀ base u1 u2, urlPathChars u1 = urlPathChars u2 →
      mapLocalPath base u1 = mapLocalPath base u2) := by
  refine ⟨by decide, by decide, ?_⟩
  intro base u1 u2 h
  simp [mapLocalPath, strippedPathStr, strippedPath, h]

theorem path_mapper_spec_witness :
    mapLocalPath "TFM_DOWNLOADED_ASSETS" "http://a.com/img/x.png?q=1"
      = mapLocalPath "TFM_DOWNLOADED_ASSETS" "https://b.net/img/x.png" :=
  path_mapper_spec.2.2 "TFM_DOWNLOADED_ASSETS" _ _ (by decide)

/-! ## Claims about the Discovery Client and Batch Orchestrator -/

theorem discoverSegment_invalid (r : DiscResp) (h : invalidDisc r = true) :
    (discoverSegment r).1 = [] ∧ (discoverSegment r).2.length = 1 ∧
    (discoverSegment r).2.all isDiscErrorLog = true := by
  cases r with
  | connFail => exact ⟨rfl, rfl, rfl⟩
  | conn status body =>
    by_cases hs : status = 200
    · subst hs
      cases body with
      | none => exact ⟨rfl, rfl, rfl⟩
      | some j =>
        cases j with
        | obj kvs => simp [invalidDisc] at h
        | arr es => simp [invalidDisc] at h
        | str s => exact ⟨rfl, rfl, rfl⟩
        | num n => exact ⟨rfl, rfl, rfl⟩
        | boolean b => exact ⟨rfl, rfl, rfl⟩
        | null => exact ⟨rfl, rfl, rfl⟩
    · refine ⟨?_, ?_, ?_⟩ <;> simp [discoverSegment, hs, isDiscErrorLog]

theorem flatten_nil_of_all_nil {α : Type} (ls : List (List α)) (h : ∀ l ∈ ls, l = []) :
    ls.flatten = [] := by
  induction ls with
  | nil => rfl
  | cons l rest ih =>
    simp [List.flatten_cons, h l (List.mem_cons_self l rest),
      ih (fun t ht => h t (List.mem_cons_of_mem l ht))]

/-- Claim C6: a discovery response that is invalid JSON, a JSON value
that is neither an object nor an array, a non-200 status, or a
connection failure contributes no locators for its segment and produces
exactly one error log line; when every segment fails this way, the batch
is exactly the statically configured locators, which moreover are part
of the batch whatever discovery returns. -/
theorem discovery_failure_keeps_static_batch :
    (∀ r, invalidDisc r = true →
      (discoverSegment r).1 = [] ∧ (discoverSegment r).2.all isDiscErrorLog = true ∧
      (discoverSegment r).2 ≠ []) ∧
    (∀ oracle : String → DiscResp, (∀ s ∈ segments, invalidDisc (oracle s) = true) →
      buildBatch oracle = staticUrls) ∧
    (∀ (oracle : String → DiscResp) (u : String), u ∈ staticUrls → u ∈ buildBatch oracle) := by
  refine ⟨?_, ?_, ?_⟩
  · intro r h
    obtain ⟨h1, h2, h3⟩ := discoverSegment_invalid r h
    refine ⟨h1, h3, ?_⟩
    intro hnil
    rw [hnil] at h2
    simp at h2
  · intro oracle h
    unfold buildBatch
    have hflat : (segments.map fun s => (discoverSegment (oracle s)).1).flatten = [] := by
      apply flatten_nil_of_all_nil
      intro l hl
      obtain ⟨s, hs, rfl⟩ := List.mem_map.mp hl
      exact (discoverSegment_invalid _ (h s hs)).1
    rw [hflat, List.nil_append]
  · intro oracle u hu
    exact List.mem_append_right _ hu

theorem discovery_failure_keeps_static_batch_witness :
    buildBatch (fun _ => DiscResp.conn 200 none) = staticUrls ∧
    (discoverSegment (DiscResp.conn 200 none)).1 = [] :=
  ⟨discovery_failure_keeps_static_batch.2.1 _ (fun _ _ => rfl),
   (discovery_failure_keeps_static_batch.1 (DiscResp.conn 200 none) rfl).1⟩

theorem isPrefixOf_append_self (l t : List Char) : l.isPrefixOf (l ++ t) = true := by
  induction l with
  | nil => simp [List.isPrefixOf]
  | cons c cs ih => simp [List.isPrefixOf, ih]

theorem qualify_isAbsolute (p : String) : IsAbsoluteUrl (qualify p) := by
  by_cases h : (strStarts "http://" p || strStarts "https://" p) = true
  · unfold IsAbsoluteUrl qualify
    rw [if_pos h]
    simpa using h
  · unfold qualify
    rw [if_neg h]
    right
    show ("https://").data.isPrefixOf
      (("https://www.transformice.com/" ++ lstripSlash p).data) = true
    have hdec : ("https://www.transformice.com/" ++ lstripSlash p).data
        = "https://".data ++ ("www.transformice.com/".data ++ (lstripSlash p).data) := rfl
    rw [hdec]
    exact isPrefixOf_append_self _ _

theorem processEntries_urls (es : List JVal) :
    (processEntries es).1 = (es.filterMap jvalStr).map qualify := by
  induction es with
  | nil => rfl
  | cons e rest ih => cases e <;> simp [processEntries, jvalStr, ih]

theorem processEntries_logs (es : List JVal) :
    (processEntries es).2
      = (es.filter (fun e => (jvalStr e).isNone)).map (fun _ => LogEvent.warnNonString) := by
  induction es with
  | nil => rfl
  | cons e rest ih => cases e <;> simp [processEntries, jvalStr, ih]

theorem discoverSegment_isAbsolute (r : DiscResp) :
    ∀ u ∈ (discoverSegment r).1, IsAbsoluteUrl u := by
  have hpe : ∀ (es : List JVal), ∀ u ∈ (processEntries es).1, IsAbsoluteUrl u := by
    intro es u hu
    rw [processEntries_urls] at hu
    obtain ⟨s, _, rfl⟩ := List.mem_map.mp hu
    exact qualify_isAbsolute s
  cases r with
  | connFail => intro u hu; simp [discoverSegment] at hu
  | conn status body =>
    by_cases hs : status = 200
    · subst hs
      cases body with
      | none => intro u hu; simp [discoverSegment] at hu
      | some j =>
        cases j with
        | obj kvs => exact fun u hu => hpe _ u (by simpa [discoverSegment] using hu)
        | arr es => exact fun u hu => hpe _ u (by simpa [discoverSegment] using hu)
        | str s => intro u hu; simp [discoverSegment] at hu
        | num n => intro u hu; simp [discoverSegment] at hu
        | boolean b => intro u hu; simp [discoverSegment] at hu
        | null => intro u hu; simp [discoverSegment] at hu
    · intro u hu; simp [discoverSegment, hs] at hu

/-- Claim C7: every locator in the batch handed to the Fetch Workers is
an absolute address — discovered entries are exactly the string entries,
qualified against the fixed origin when they lack an `http` or `https`
scheme, and non-string entries are skipped with one warning each. -/
theorem batch_urls_absolute :
    (∀ (oracle : String → DiscResp) (u : String), u ∈ buildBatch oracle → IsAbsoluteUrl u) ∧
    (∀ es : List JVal,
      (processEntries es).1 = (es.filterMap jvalStr).map qualify ∧
      (processEntries es).2
        = (es.filter (fun e => (jvalStr e).isNone)).map (fun _ => LogEvent.warnNonString)) := by
  refine ⟨?_, fun es => ⟨processEntries_urls es, processEntries_logs es⟩⟩
  intro oracle u hu
  unfold buildBatch at hu
  rcases List.mem_append.mp hu with h | h
  · obtain ⟨l, hl, hul⟩ := List.mem_flatten.mp h
    obtain ⟨s, _, rfl⟩ := List.mem_map.mp hl
    exact discoverSegment_isAbsolute _ u hul
  · have hstat : ∀ v ∈ staticUrls,
        (strStarts "http://" v = true ∨ strStarts "https://" v = true) := by decide
    exact hstat u h

theorem batch_urls_absolute_witness :
    IsAbsoluteUrl "http://transformice.com/images/x_bibliotheques/x_fourrures.swf" :=
  batch_urls_absolute.1 (fun _ => DiscResp.connFail) _ (by decide)

/-- Claim C9 counterexample: an endpoint answer repeating the same entry
makes the discovered collection contain the same locator twice — it is a
list with duplicates, not a set. -/
theorem discovery_duplicates_counterexample :
    (discoverSegment (DiscResp.conn 200
        (some (JVal.arr [JVal.str "a.png", JVal.str "a.png"])))).1
      = ["https://www.transformice.com/a.png", "https://www.transformice.com/a.png"] ∧
    ¬ ((discoverSegment (DiscResp.conn 200
        (some (JVal.arr [JVal.str "a.png", JVal.str "a.png"])))).1).Nodup :=
  ⟨by decide, by decide⟩

/-- Claim C9 amended: discovery produces a LIST of locators in endpoint
order — exactly the qualified string entries, with any repetition of an
entry preserved rather than deduplicated into a set. -/
theorem discovery_yields_list_in_order :
    (∀ es : List JVal,
      (discoverSegment (DiscResp.conn 200 (some (JVal.arr es)))).1
        = (es.filterMap jvalStr).map qualify) ∧
    (∀ kvs : List (String × JVal),
      (discoverSegment (DiscResp.conn 200 (some (JVal.obj kvs)))).1
        = ((kvs.map Prod.snd).filterMap jvalStr).map qualify) := by
  constructor
  · intro es
    simpa [discoverSegment] using processEntries_urls es
  · intro kvs
    simpa [discoverSegment] using processEntries_urls (kvs.map Prod.snd)

/-! ## Claim about paths staying under the root -/

theorem splitSlash_append (xs t : List Char) (h : '/' ∉ xs) :
    splitSlash (xs ++ '/' :: t) = xs :: splitSlash t := by
  induction xs with
  | nil => simp [splitSlash]
  | cons c cs ih =>
    have hc : ¬ c = '/' := fun hc => h (by simp [hc])
    simp [splitSlash, hc, ih (fun hm => h (List.mem_cons_of_mem c hm))]

theorem foldl_resolveStep (segs : List (List Char)) (acc : List (List Char))
    (h : ∀ s ∈ segs, s ≠ dotdot) :
    segs.foldl resolveStep acc = acc ++ segs := by
  induction segs generalizing acc with
  | nil => simp
  | cons s rest ih =>
    have hs : s ≠ dotdot := h s (List.mem_cons_self s rest)
    have hrest : ∀ x ∈ rest, x ≠ dotdot := fun x hx => h x (List.mem_cons_of_mem s hx)
    simp [List.foldl_cons, resolveStep, hs, ih (acc ++ [s]) hrest]

/-- Claim C8 counterexample: the code never sanitizes `..` segments, so
the locator `http://example.com/../secret.txt` maps to
`TFM_DOWNLOADED_ASSETS/../secret.txt`, which resolves to `secret.txt`
outside the root directory. -/
theorem path_escapes_root_counterexample :
    mapLocalPath BASE_DOWNLOAD_FOLDER "http://example.com/../secret.txt"
      = "TFM_DOWNLOADED_ASSETS/../secret.txt" ∧
    underRoot BASE_DOWNLOAD_FOLDER
      (mapLocalPath BASE_DOWNLOAD_FOLDER "http://example.com/../secret.txt") = false :=
  ⟨by decide, by decide⟩

/-- Claim C8 amended: the mapped path stays under the configured root
provided the stripped, decoded path component does not itself begin with
a path separator (which would make the joined path absolute) and
contains no `..` segment. -/
theorem path_under_root_when_no_dotdot (url : String)
    (h1 : strStarts "/" (strippedPathStr url) = false)
    (h2 : (splitSlash (strippedPath url)).all (fun s => !(s == dotdot)) = true) :
    underRoot BASE_DOWNLOAD_FOLDER (mapLocalPath BASE_DOWNLOAD_FOLDER url) = true := by
  have hjoin : mapLocalPath BASE_DOWNLOAD_FOLDER url
      = BASE_DOWNLOAD_FOLDER ++ "/" ++ strippedPathStr url := by
    have hb1 : ¬ (BASE_DOWNLOAD_FOLDER = "") := by decide
    have hb2 : strEnds "/" BASE_DOWNLOAD_FOLDER = false := by decide
    simp [mapLocalPath, osPathJoin, h1, hb1, hb2]
  have hdata : (BASE_DOWNLOAD_FOLDER ++ "/" ++ strippedPathStr url).data
      = BASE_DOWNLOAD_FOLDER.data ++ '/' :: strippedPath url := rfl
  have hsplit : splitSlash (BASE_DOWNLOAD_FOLDER ++ "/" ++ strippedPathStr url).data
      = BASE_DOWNLOAD_FOLDER.data :: splitSlash (strippedPath url) := by
    rw [hdata]
    exact splitSlash_append _ _ (by decide)
  have hno : ∀ s ∈ (splitSlash (strippedPath url)).filter segKeep, s ≠ dotdot := by
    intro s hs
    have hmem := List.mem_of_mem_filter hs
    have hall := List.all_eq_true.mp h2 s hmem
    simpa using hall
  have hkeep : segKeep BASE_DOWNLOAD_FOLDER.data = true := rfl
  have hres : resolveSegs (BASE_DOWNLOAD_FOLDER ++ "/" ++ strippedPathStr url)
      = BASE_DOWNLOAD_FOLDER.data :: (splitSlash (strippedPath url)).filter segKeep := by
    unfold resolveSegs
    rw [hsplit, List.filter_cons, if_pos hkeep, List.foldl_cons,
      show resolveStep [] BASE_DOWNLOAD_FOLDER.data = [BASE_DOWNLOAD_FOLDER.data] from rfl,
      foldl_resolveStep _ _ hno]
    simp
  have hstart : strStarts "/" (BASE_DOWNLOAD_FOLDER ++ "/" ++ strippedPathStr url) = false := rfl
  rw [hjoin]
  unfold underRoot
  rw [hstart, hres]
  simp

theorem path_under_root_when_no_dotdot_witness :
    underRoot BASE_DOWNLOAD_FOLDER
      (mapLocalPath BASE_DOWNLOAD_FOLDER
        "https://www.transformice.com/a/b%20c.png?x=1") = true :=
  path_under_root_when_no_dotdot _ (by decide) (by decide)

end TfmParser
